import Mathlib

/-!
Verification development for the AHS accessibility data pipeline
(`src/data/process_real.py`).  The pipeline loads survey microdata,
recodes year-built and units-in-structure into analysis categories,
flags households with accessibility needs, filters to valid records,
and emits weighted prevalence summary tables by building age and
structure type.

The embedding below translates the Python source into Lean:
dataframes become lists of records, pandas cells become `Option`
values (`none` = NaN), sampling weights and percentages are rationals,
and pandas `groupby` becomes grouping over first-appearance group
keys.  Fallible loading returns `Except`.
-/

/-- A categorical cell of the dataframe: `none` models a pandas NaN. -/
abbrev Cell := Option String

/-- Mapping for UNITSIZE (units in structure), from `UNITSIZE_MAP`. -/
def UNITSIZE_MAP (c : String) : Option String :=
  if c = "1" then some "1 unit (single-family detached)"
  else if c = "2" then some "1 unit (single-family attached)"
  else if c = "3" then some "2 units"
  else if c = "4" then some "3-4 units"
  else if c = "5" then some "5-9 units"
  else if c = "6" then some "10-19 units"
  else if c = "7" then some "20-49 units"
  else if c = "8" then some "50+ units"
  else if c = "9" then some "Mobile home/trailer/other"
  else none

/-- Broad structure-type recode, from `UNITSIZE_BROAD`; a code outside
the map yields `none` (pandas `.map` sends unknown keys to NaN). -/
def UNITSIZE_BROAD (c : String) : Option String :=
  if c = "1" then some "Single-family detached"
  else if c = "2" then some "Single-family attached"
  else if c = "3" then some "2-4 units"
  else if c = "4" then some "2-4 units"
  else if c = "5" then some "5-49 units"
  else if c = "6" then some "5-49 units"
  else if c = "7" then some "5-49 units"
  else if c = "8" then some "50+ units"
  else if c = "9" then some "Mobile home/other"
  else none

/-- Function categorize_age from the source: `None` (NaN) or negative year
built yields no category, otherwise the five age buckets.  Year built
is a rational because pandas `to_numeric` produces floats. -/
def categorize_age (year_built : Option ℚ) : Option String :=
  match year_built with
  | none => none
  | some y =>
    if y < 0 then none
    else if y < 1960 then some "Before 1960"
    else if y < 1980 then some "1960-1979"
    else if y < 2000 then some "1980-1999"
    else if y < 2010 then some "2000-2009"
    else some "2010 or later"

/-- Table ACCESSIBILITY_VARS: variable name with its display name. -/
def ACCESSIBILITY_VARS : List (String × String) :=
  [("NOSTEP", "No-step entrance"),
   ("HARAMP", "Wheelchair ramp"),
   ("MHWIDE", "Wide doorways/hallways"),
   ("HMRACCESS", "Accessible bathroom"),
   ("HABEDENTRY", "Bedroom on entry level"),
   ("HABATHENTRY", "Bathroom on entry level")]

/-- Table DIFFICULTY_VARS: reverse-coded difficulty variables (loaded but
not summarised by the pipeline). -/
def DIFFICULTY_VARS : List (String × String) :=
  [("HAGETHOME", "Difficulty entering home"),
   ("HAGETKIT", "Difficulty using kitchen"),
   ("HAGETBATH", "Difficulty using bathroom"),
   ("HAGETBED", "Difficulty using bedroom")]

/-- List accessibility_needs_vars from load_and_process_data. -/
def accessibility_needs_vars : List String :=
  ["CANE", "HAGETHOME", "HAGETKIT", "HAGETBATH", "HAGETBED", "HHWALK"]

/-- List columns_needed passed to pd.read_csv usecols. -/
def columns_needed : List String :=
  ["WEIGHT", "YRBUILT", "UNITSIZE"] ++
    ACCESSIBILITY_VARS.map Prod.fst ++
    DIFFICULTY_VARS.map Prod.fst ++
    accessibility_needs_vars

/-- One raw CSV row.  `weight` and `yrbuilt` hold the result of
`pd.to_numeric(..., errors=coerce)` (`none` = coercion failure / NaN);
`cellOf` gives the raw string cell of each categorical column. -/
structure RawRow where
  weight : Option ℚ
  yrbuilt : Option ℚ
  cellOf : String → Cell

/-- The raw input table: its column schema and its rows. -/
structure RawTable where
  cols : List String
  rows : List RawRow

/-- A processed record after `load_and_process_data` adds the derived
columns `age_category`, `structure_type`, `has_accessibility_needs`. -/
structure ProcRow where
  weight : Option ℚ
  yrbuilt : Option ℚ
  cellOf : String → Cell
  age_category : Option String
  structure_type : Option String
  has_accessibility_needs : Bool

/-- The processed dataframe: columns and processed rows. -/
structure DataFrame where
  cols : List String
  rows : List ProcRow

/-- The apostrophe character, used as the quote to strip. -/
def quoteChar : Char := Char.ofNat 39

/-- Python `str.strip` with the single-quote character: removes leading
and trailing apostrophes (source line `df[col].str.strip`). -/
def stripQuotes (s : String) : String :=
  String.mk (((s.toList.dropWhile (fun c => c = quoteChar)).reverse.dropWhile
    (fun c => c = quoteChar)).reverse)

/-- The boolean filter `df[WEIGHT] > 0`: a NaN weight compares false. -/
def weightPos (w : Option ℚ) : Bool :=
  match w with
  | some x => decide (0 < x)
  | none => false

/-- Recode one raw row: strip quotes from categorical cells, derive the
age category, the broad structure type and the accessibility-needs
flag (source lines 101-121).  The needs flag is true iff any
need-indicator column present in the schema holds code 1. -/
def processRow (cols : List String) (r : RawRow) : ProcRow :=
  let cleaned : String → Cell := fun c => (r.cellOf c).map stripQuotes
  { weight := r.weight
    yrbuilt := r.yrbuilt
    cellOf := cleaned
    age_category := categorize_age r.yrbuilt
    structure_type := (cleaned "UNITSIZE").bind UNITSIZE_BROAD
    has_accessibility_needs :=
      (accessibility_needs_vars.filter (fun v => decide (v ∈ cols))).any
        (fun v => cleaned v == some "1") }

/-- Function load_and_process_data: pandas read_csv with usecols
fails when any requested column is missing from the input schema;
otherwise every row is recoded and the rows are filtered to positive
weight, resolved age category and resolved structure type.  The
resulting dataframe's columns are the selected ones plus the three
derived columns. -/
def load_and_process_data (t : RawTable) : Except String DataFrame :=
  if columns_needed.all (fun c => decide (c ∈ t.cols)) then
    let procd := t.rows.map (processRow t.cols)
    let filtered := procd.filter (fun r =>
      weightPos r.weight && r.age_category.isSome && r.structure_type.isSome)
    Except.ok
      { cols := columns_needed ++ ["age_category", "structure_type", "has_accessibility_needs"]
        rows := filtered }
  else
    Except.error "Usecols do not match columns"

/-- The rows of the loaded dataframe, or `[]` when loading failed. -/
def loadedRows (t : RawTable) : List ProcRow :=
  match load_and_process_data t with
  | Except.ok df => df.rows
  | Except.error _ => []

/-- The weight of a processed row as summed by pandas `.sum()`
(NaN contributes 0 under default skipna). -/
def wgt (r : ProcRow) : ℚ := r.weight.getD 0

/-- Weight sum, pandas WEIGHT sum over a list of rows. -/
def wsum (rows : List ProcRow) : ℚ := (rows.map wgt).sum

/-- Numerator sum: the 0/1 has-feature indicator times the
weight, summed. -/
def fsum (rows : List ProcRow) (f : ProcRow → Bool) : ℚ :=
  (rows.map (fun r => (if f r then (1 : ℚ) else 0) * wgt r)).sum

/-- The two grouping columns passed as `group_var`. -/
inductive GroupVar
  | age_category
  | structure_type
deriving DecidableEq

/-- Read the grouping column of a processed row. -/
def GroupVar.get : GroupVar → ProcRow → Option String
  | GroupVar.age_category, r => r.age_category
  | GroupVar.structure_type, r => r.structure_type

/-- Distinct strings of a list in order of first appearance, skipping
those already seen. -/
def keysAux (seen : List String) : List String → List String
  | [] => []
  | a :: l => if a ∈ seen then keysAux seen l else a :: keysAux (a :: seen) l

/-- The group labels formed by `groupby(group_var)`: the distinct
non-missing values of the grouping column (pandas drops NaN keys; only
labels carried by at least one row form a group). -/
def groupKeys (g : GroupVar) (rows : List ProcRow) : List String :=
  keysAux [] (rows.filterMap g.get)

/-- The `groupby(group_var).apply(lambda x: ...)` kernel shared by
`calculate_feature_prevalence` and the composite-measure blocks of
`generate_summaries`: for each group, the weighted percentage of rows
satisfying `f` and the group's total weight. -/
def prevalenceByGroup (g : GroupVar) (rows : List ProcRow) (f : ProcRow → Bool) :
    List (String × ℚ × ℚ) :=
  (groupKeys g rows).map (fun k =>
    let sub := rows.filter (fun r => g.get r == some k)
    (k, 100 * fsum sub f / wsum sub, wsum sub))

/-- The needs-filter dispatch at the top of
`calculate_feature_prevalence` (lines 149-152). -/
def applyNeedsFilter (needs_filter : String) (rows : List ProcRow) : List ProcRow :=
  if needs_filter = "with_needs" then
    rows.filter (fun r => r.has_accessibility_needs)
  else if needs_filter = "without_needs" then
    rows.filter (fun r => !r.has_accessibility_needs)
  else rows

/-- Validity test, pandas isin over codes 1 and 2: the cell is the Yes or the No code. -/
def isValidCode (c : Cell) : Bool := c == some "1" || c == some "2"

/-- One row of an output summary table. -/
structure SummaryRow where
  group : String
  percent_with_feature : ℚ
  total_units : ℚ
  feature : String
  needs_filter : String
deriving DecidableEq

/-- Function calculate_feature_prevalence: apply the needs filter, keep the
valid-response rows (code 1 or 2), group and compute the weighted
percentage of code-1 rows and the total weight, tagging each row with
the feature display name and the needs filter. -/
def calculate_feature_prevalence (df : DataFrame) (g : GroupVar)
    (feature_var feature_name needs_filter : String) : List SummaryRow :=
  let rows := applyNeedsFilter needs_filter df.rows
  let valid := rows.filter (fun r => isValidCode (r.cellOf feature_var))
  (prevalenceByGroup g valid (fun r => r.cellOf feature_var == some "1")).map
    (fun p => { group := p.1, percent_with_feature := p.2.1, total_units := p.2.2,
                feature := feature_name, needs_filter := needs_filter })

/-- Validity test of the composite measure (source line 207): both the
entry-level-bedroom and the entry-level-bathroom cells are coded 1 or 2. -/
def bothValid (r : ProcRow) : Bool :=
  isValidCode (r.cellOf "HABEDENTRY") && isValidCode (r.cellOf "HABATHENTRY")

/-- Presence test of the composite measure (source line 208): both
cells are coded 1 (Yes). -/
def bothPresent (r : ProcRow) : Bool :=
  (r.cellOf "HABEDENTRY" == some "1") && (r.cellOf "HABATHENTRY" == some "1")

/-- The display name of the composite single-floor-living measure. -/
def singleFloorName : String := "Single-floor living (bed + bath on entry)"

/-- The composite-measure block of `generate_summaries` (lines
196-230): needs filter, validity on both underlying columns, then the
shared grouped-prevalence kernel with the conjunction as the feature. -/
def compositeSummary (df : DataFrame) (g : GroupVar) (needs_filter : String) :
    List SummaryRow :=
  let rows := applyNeedsFilter needs_filter df.rows
  let valid := rows.filter bothValid
  (prevalenceByGroup g valid bothPresent).map
    (fun p => { group := p.1, percent_with_feature := p.2.1, total_units := p.2.2,
                feature := singleFloorName, needs_filter := needs_filter })

/-- The selectors the `generate_summaries` loop iterates over
(source line 181). -/
def needs_selectors : List String := ["all", "with_needs"]

/-- One output table of `generate_summaries`: for each selector, each
accessibility variable present in the schema contributes its
prevalence rows, then the composite measure contributes its rows when
both of its columns are present. -/
def tableFor (df : DataFrame) (g : GroupVar) : List SummaryRow :=
  needs_selectors.flatMap (fun filt =>
    (ACCESSIBILITY_VARS.flatMap (fun p =>
      if p.1 ∈ df.cols then
        calculate_feature_prevalence df g p.1 p.2 filt
      else []))
    ++
    (if "HABEDENTRY" ∈ df.cols ∧ "HABATHENTRY" ∈ df.cols then
      compositeSummary df g filt
    else []))

/-- Python `int(...)` on a rational: truncation toward zero. -/
def pyInt (q : ℚ) : ℤ := if q < 0 then -Int.floor (-q) else Int.floor q

/-- The metadata record assembled by `generate_summaries`. -/
structure Metadata where
  year : ℤ
  source : String
  total_units : ℤ
  sample_size : ℕ
  features_analyzed : List String
  note : String
deriving DecidableEq

/-- The full output of `generate_summaries`. -/
structure Summaries where
  by_age : List SummaryRow
  by_structure : List SummaryRow
  metadata : Metadata

/-- Function generate_summaries: the by-age and by-structure tables plus the
metadata record. -/
def generate_summaries (df : DataFrame) : Summaries :=
  { by_age := tableFor df GroupVar.age_category
    by_structure := tableFor df GroupVar.structure_type
    metadata :=
      { year := 2019
        source := "American Housing Survey 2019 (Accessibility Topical Module)"
        total_units := pyInt (wsum df.rows)
        sample_size := df.rows.length
        features_analyzed := ACCESSIBILITY_VARS.map Prod.snd
        note := "Percentages based on weighted estimates. Missing/not applicable responses excluded." } }

/-- The whole pipeline: load, then summarise. -/
def runPipeline (t : RawTable) : Except String Summaries :=
  (load_and_process_data t).map generate_summaries

/-- Classification of one feature response, following the spec
vocabulary: present / absent / unknown. -/
inductive FeatureEval
  | present
  | absent
  | unknown
deriving DecidableEq

/-- Evaluate a simple feature on a record: code 1 is present, code 2
is absent, anything else (including -6, -9 and NaN) is unknown. -/
def featureEval (v : String) (r : ProcRow) : FeatureEval :=
  if r.cellOf v = some "1" then FeatureEval.present
  else if r.cellOf v = some "2" then FeatureEval.absent
  else FeatureEval.unknown

/-- A feature evaluation counts toward the denominator iff it is not
unknown. -/
def FeatureEval.isValid : FeatureEval → Bool
  | FeatureEval.unknown => false
  | _ => true

/-- A feature evaluation counts toward the numerator iff it is present. -/
def FeatureEval.isPresent : FeatureEval → Bool
  | FeatureEval.present => true
  | _ => false

/-- Evaluate the composite single-floor-living measure on a record,
derived from the two validity/presence tests of the source. -/
def compositeEval (r : ProcRow) : FeatureEval :=
  if bothValid r then
    (if bothPresent r then FeatureEval.present else FeatureEval.absent)
  else FeatureEval.unknown

/-- Overwrite one categorical column of a record, leaving every other
column and every derived field unchanged. -/
def ProcRow.setCell (r : ProcRow) (v : String) (c : Cell) : ProcRow :=
  { r with cellOf := fun x => if x = v then c else r.cellOf x }

/-! ### Basic lemmas about grouping and weighted sums -/

theorem mem_keysAux (x : String) : ∀ (l seen : List String),
    x ∈ keysAux seen l ↔ x ∈ l ∧ x ∉ seen := by
  intro l
  induction l with
  | nil => intro seen; simp [keysAux]
  | cons a t ih =>
    intro seen
    by_cases h : a ∈ seen
    · rw [keysAux, if_pos h, ih]
      constructor
      · rintro ⟨h1, h2⟩
        exact ⟨List.mem_cons_of_mem _ h1, h2⟩
      · rintro ⟨h1, h2⟩
        rcases List.mem_cons.mp h1 with rfl | h1
        · exact absurd h h2
        · exact ⟨h1, h2⟩
    · rw [keysAux, if_neg h]
      simp only [List.mem_cons, ih]
      constructor
      · rintro (rfl | ⟨h1, h2⟩)
        · exact ⟨Or.inl rfl, h⟩
        · exact ⟨Or.inr h1, fun hs => h2 (Or.inr hs)⟩
      · rintro ⟨h1 | h1, h2⟩
        · exact Or.inl h1
        · by_cases hxa : x = a
          · exact Or.inl hxa
          · exact Or.inr ⟨h1, fun hs => hs.elim hxa h2⟩

theorem mem_groupKeys (g : GroupVar) (rows : List ProcRow) (k : String) :
    k ∈ groupKeys g rows ↔ ∃ r ∈ rows, g.get r = some k := by
  rw [groupKeys, mem_keysAux]
  simp [List.mem_filterMap]

theorem wsum_cons (a : ProcRow) (t : List ProcRow) : wsum (a :: t) = wgt a + wsum t := by
  simp [wsum]

theorem fsum_cons (f : ProcRow → Bool) (a : ProcRow) (t : List ProcRow) :
    fsum (a :: t) f = (if f a then (1 : ℚ) else 0) * wgt a + fsum t f := by
  simp [fsum]

theorem fsum_eq_wsum_filter (f : ProcRow → Bool) :
    ∀ l : List ProcRow, fsum l f = wsum (l.filter f) := by
  intro l
  induction l with
  | nil => rfl
  | cons a t ih =>
    rw [fsum_cons, ih, List.filter_cons]
    by_cases h : f a = true
    · simp [h, wsum_cons]
    · simp [h]

theorem wsum_nonneg : ∀ l : List ProcRow, (∀ r ∈ l, 0 ≤ wgt r) → 0 ≤ wsum l := by
  intro l
  induction l with
  | nil => intro _; simp [wsum]
  | cons a t ih =>
    intro h
    have ha := h a (List.mem_cons_self a t)
    have ht := ih (fun r hr => h r (List.mem_cons_of_mem _ hr))
    simp only [wsum, List.map_cons, List.sum_cons] at *
    linarith

theorem wsum_filter_le (p : ProcRow → Bool) :
    ∀ l : List ProcRow, (∀ r ∈ l, 0 ≤ wgt r) → wsum (l.filter p) ≤ wsum l := by
  intro l
  induction l with
  | nil => intro _; simp [wsum]
  | cons a t ih =>
    intro h
    have ha := h a (List.mem_cons_self a t)
    have ht := ih (fun r hr => h r (List.mem_cons_of_mem _ hr))
    rw [List.filter_cons, wsum_cons]
    by_cases hp : p a = true
    · rw [if_pos hp, wsum_cons]
      linarith
    · rw [if_neg hp]
      linarith

theorem wsum_pos : ∀ l : List ProcRow, (∀ r ∈ l, 0 < wgt r) → l ≠ [] → 0 < wsum l := by
  intro l
  cases l with
  | nil => intro _ h; exact absurd rfl h
  | cons a t =>
    intro h _
    have ha := h a (List.mem_cons_self a t)
    have ht := wsum_nonneg t (fun r hr => le_of_lt (h r (List.mem_cons_of_mem _ hr)))
    simp only [wsum, List.map_cons, List.sum_cons] at *
    linarith

theorem prevalenceByGroup_bounds (g : GroupVar) (f : ProcRow → Bool)
    (rows : List ProcRow) (h : ∀ r ∈ rows, 0 < wgt r) :
    ∀ x ∈ prevalenceByGroup g rows f, 0 ≤ x.2.1 ∧ x.2.1 ≤ 100 ∧ 0 < x.2.2 := by
  intro x hx
  simp only [prevalenceByGroup, List.mem_map] at hx
  obtain ⟨k, hk, rfl⟩ := hx
  obtain ⟨r, hr, hrk⟩ := (mem_groupKeys g rows k).mp hk
  have hsubpos : ∀ y ∈ rows.filter (fun r => g.get r == some k), 0 < wgt y :=
    fun y hy => h y (List.mem_of_mem_filter hy)
  have hrsub : r ∈ rows.filter (fun r => g.get r == some k) :=
    List.mem_filter.mpr ⟨hr, by simp [hrk]⟩
  have hden : 0 < wsum (rows.filter (fun r => g.get r == some k)) :=
    wsum_pos _ hsubpos (List.ne_nil_of_mem hrsub)
  have hnum0 : 0 ≤ fsum (rows.filter (fun r => g.get r == some k)) f := by
    rw [fsum_eq_wsum_filter]
    exact wsum_nonneg _
      (fun y hy => le_of_lt (hsubpos y (List.mem_of_mem_filter hy)))
  have hnumle : fsum (rows.filter (fun r => g.get r == some k)) f ≤
      wsum (rows.filter (fun r => g.get r == some k)) := by
    rw [fsum_eq_wsum_filter]
    exact wsum_filter_le _ _ (fun y hy => le_of_lt (hsubpos y hy))
  refine ⟨?_, ?_, hden⟩
  · exact div_nonneg (by linarith) (le_of_lt hden)
  · rw [div_le_iff₀ hden]
    linarith

/-! ### Pointwise correspondence between response codes and feature
evaluations -/

theorem validCode_eq_eval (v : String) (r : ProcRow) :
    isValidCode (r.cellOf v) = (featureEval v r).isValid := by
  unfold isValidCode featureEval
  by_cases h1 : r.cellOf v = some "1"
  · simp [h1, FeatureEval.isValid]
  · by_cases h2 : r.cellOf v = some "2"
    · simp [h1, h2, FeatureEval.isValid]
    · simp [h1, h2, FeatureEval.isValid]

theorem presentCode_eq_eval (v : String) (r : ProcRow) :
    (r.cellOf v == some "1") = (featureEval v r).isPresent := by
  unfold featureEval
  by_cases h1 : r.cellOf v = some "1"
  · simp [h1, FeatureEval.isPresent]
  · by_cases h2 : r.cellOf v = some "2"
    · simp [h1, h2, FeatureEval.isPresent]
    · simp [h1, h2, FeatureEval.isPresent]

theorem presentValid_and (e : FeatureEval) (b : Bool) :
    (e.isPresent && (b && e.isValid)) = (b && e.isPresent) := by
  cases e <;> cases b <;> rfl

/-- C1: for every grouping dimension, feature variable, and selector,
every row emitted by `calculate_feature_prevalence` has
`percent_with_feature` equal to 100 times the weight of the
feature-present records of its group divided by the weight of the
valid-response (present-or-absent) records of its group, and
`total_units` equal to that same denominator weight sum. -/
theorem C1_aggregator_weighted_prevalence (df : DataFrame) (g : GroupVar)
    (v nm filt : String) (row : SummaryRow)
    (hrow : row ∈ calculate_feature_prevalence df g v nm filt) :
    row.percent_with_feature =
      100 * wsum ((applyNeedsFilter filt df.rows).filter
          (fun r => (g.get r == some row.group) && (featureEval v r).isPresent)) /
        wsum ((applyNeedsFilter filt df.rows).filter
          (fun r => (g.get r == some row.group) && (featureEval v r).isValid)) ∧
    row.total_units =
      wsum ((applyNeedsFilter filt df.rows).filter
        (fun r => (g.get r == some row.group) && (featureEval v r).isValid)) := by
  simp only [calculate_feature_prevalence, prevalenceByGroup, List.mem_map] at hrow
  obtain ⟨p, ⟨k, hk, rfl⟩, rfl⟩ := hrow
  dsimp only
  have hmerge :
      ((applyNeedsFilter filt df.rows).filter
          (fun r => isValidCode (r.cellOf v))).filter (fun r => g.get r == some k) =
        (applyNeedsFilter filt df.rows).filter
          (fun r => (g.get r == some k) && isValidCode (r.cellOf v)) :=
    List.filter_filter _ _
  have hden :
      ((applyNeedsFilter filt df.rows).filter
          (fun r => isValidCode (r.cellOf v))).filter (fun r => g.get r == some k) =
        (applyNeedsFilter filt df.rows).filter
          (fun r => (g.get r == some k) && (featureEval v r).isValid) := by
    rw [hmerge]
    exact List.filter_congr (fun r _ => by rw [validCode_eq_eval])
  have hnum :
      fsum (((applyNeedsFilter filt df.rows).filter
          (fun r => isValidCode (r.cellOf v))).filter (fun r => g.get r == some k))
        (fun r => r.cellOf v == some "1") =
      wsum ((applyNeedsFilter filt df.rows).filter
        (fun r => (g.get r == some k) && (featureEval v r).isPresent)) := by
    rw [fsum_eq_wsum_filter, hmerge, List.filter_filter]
    congr 1
    exact List.filter_congr (fun r _ => by
      rw [presentCode_eq_eval, validCode_eq_eval, presentValid_and])
  exact ⟨by rw [hnum, hden], by rw [hden]⟩

/-! ### Concrete sample records (the spec's end-to-end scenario: three
records with weights 100, 50, 30 in the same group, feature coded
Yes, No, unknown respectively) -/

def cellsA : String → Cell := fun c =>
  if c = "NOSTEP" then some "1"
  else if c = "HABEDENTRY" then some "1"
  else if c = "HABATHENTRY" then some "1"
  else if c = "UNITSIZE" then some "1"
  else if c = "CANE" then some "1"
  else none

def cellsB : String → Cell := fun c =>
  if c = "NOSTEP" then some "2"
  else if c = "HABEDENTRY" then some "1"
  else if c = "HABATHENTRY" then some "2"
  else if c = "UNITSIZE" then some "1"
  else none

def cellsC : String → Cell := fun c =>
  if c = "NOSTEP" then none
  else if c = "HABEDENTRY" then some "-6"
  else if c = "HABATHENTRY" then some "1"
  else if c = "UNITSIZE" then some "1"
  else none

def procA : ProcRow :=
  { weight := some 100, yrbuilt := some 1950, cellOf := cellsA,
    age_category := some "Before 1960",
    structure_type := some "Single-family detached",
    has_accessibility_needs := true }

def procB : ProcRow :=
  { weight := some 50, yrbuilt := some 1950, cellOf := cellsB,
    age_category := some "Before 1960",
    structure_type := some "Single-family detached",
    has_accessibility_needs := false }

def procC : ProcRow :=
  { weight := some 30, yrbuilt := some 1950, cellOf := cellsC,
    age_category := some "Before 1960",
    structure_type := some "Single-family detached",
    has_accessibility_needs := false }

def sampleDF : DataFrame :=
  { cols := columns_needed ++ ["age_category", "structure_type", "has_accessibility_needs"]
    rows := [procA, procB, procC] }

def rowNostepAll : SummaryRow :=
  { group := "Before 1960", percent_with_feature := 200/3, total_units := 150,
    feature := "No-step entrance", needs_filter := "all" }

theorem calcSampleAll_eval :
    calculate_feature_prevalence sampleDF GroupVar.age_category
        "NOSTEP" "No-step entrance" "all" = [rowNostepAll] := by
  have h0 : calculate_feature_prevalence sampleDF GroupVar.age_category
      "NOSTEP" "No-step entrance" "all" =
    [{ group := "Before 1960",
       percent_with_feature := 100 * ((1 : ℚ) * 100 + ((0 : ℚ) * 50 + 0)) / (100 + (50 + 0)),
       total_units := (100 : ℚ) + (50 + 0),
       feature := "No-step entrance", needs_filter := "all" }] := rfl
  rw [h0]
  unfold rowNostepAll
  norm_num

theorem C1_aggregator_weighted_prevalence_witness :
    rowNostepAll ∈
      calculate_feature_prevalence sampleDF GroupVar.age_category
        "NOSTEP" "No-step entrance" "all" ∧
    (200/3 : ℚ) =
      100 * wsum ((applyNeedsFilter "all" sampleDF.rows).filter
          (fun r => (GroupVar.get GroupVar.age_category r == some "Before 1960") &&
            (featureEval "NOSTEP" r).isPresent)) /
        wsum ((applyNeedsFilter "all" sampleDF.rows).filter
          (fun r => (GroupVar.get GroupVar.age_category r == some "Before 1960") &&
            (featureEval "NOSTEP" r).isValid)) ∧
    (150 : ℚ) =
      wsum ((applyNeedsFilter "all" sampleDF.rows).filter
        (fun r => (GroupVar.get GroupVar.age_category r == some "Before 1960") &&
          (featureEval "NOSTEP" r).isValid)) := by
  have hmem : rowNostepAll ∈
      calculate_feature_prevalence sampleDF GroupVar.age_category
        "NOSTEP" "No-step entrance" "all" := by
    rw [calcSampleAll_eval]
    exact List.mem_singleton.mpr rfl
  have h := C1_aggregator_weighted_prevalence sampleDF GroupVar.age_category
    "NOSTEP" "No-step entrance" "all" _ hmem
  exact ⟨hmem, h.1, h.2⟩

/-! ### Properties of the load filter -/

theorem loadedRows_pred (t : RawTable) :
    ∀ r ∈ loadedRows t,
      (weightPos r.weight && r.age_category.isSome && r.structure_type.isSome) = true := by
  intro r hr
  cases hcols : columns_needed.all (fun c => decide (c ∈ t.cols)) with
  | true =>
    simp only [loadedRows, load_and_process_data, hcols, if_true] at hr
    exact (List.mem_filter.mp hr).2
  | false =>
    simp [loadedRows, load_and_process_data, hcols] at hr

theorem weightPos_wgt {w : Option ℚ} (h : weightPos w = true) : 0 < w.getD 0 := by
  cases w with
  | none => simp [weightPos] at h
  | some x =>
    simp only [weightPos] at h
    exact of_decide_eq_true h

/-- Sample raw input row: weight 100, built 1950, single-family
detached, all features Yes, a cane user (accessibility needs). -/
def rawCellsA : String → Cell := fun c =>
  if c = "UNITSIZE" then some "1"
  else if c = "NOSTEP" then some "1"
  else if c = "HABEDENTRY" then some "1"
  else if c = "HABATHENTRY" then some "1"
  else if c = "CANE" then some "1"
  else none

def rawRowA : RawRow :=
  { weight := some 100, yrbuilt := some 1950, cellOf := rawCellsA }

/-- A sample raw table carrying the full required schema. -/
def rawSample : RawTable := { cols := columns_needed, rows := [rawRowA] }

/-- C3: the age-category recoding maps year built y to Before 1960 iff
y < 1960 (among non-negative years), to the 1960-1979, 1980-1999,
2000-2009 buckets on the half-open intervals, to 2010 or later iff
y is at least 2010; missing or negative year built is unmapped, and
every loaded record has a resolved age category (unmapped records are
excluded from both output tables); the four boundary years behave as
specified. -/
theorem C3_age_recoding :
    (categorize_age none = none) ∧
    (∀ y : ℚ, categorize_age (some y) = none ↔ y < 0) ∧
    (∀ y : ℚ, 0 ≤ y → (categorize_age (some y) = some "Before 1960" ↔ y < 1960)) ∧
    (∀ y : ℚ, categorize_age (some y) = some "1960-1979" ↔ 1960 ≤ y ∧ y < 1980) ∧
    (∀ y : ℚ, categorize_age (some y) = some "1980-1999" ↔ 1980 ≤ y ∧ y < 2000) ∧
    (∀ y : ℚ, categorize_age (some y) = some "2000-2009" ↔ 2000 ≤ y ∧ y < 2010) ∧
    (∀ y : ℚ, categorize_age (some y) = some "2010 or later" ↔ 2010 ≤ y) ∧
    (categorize_age (some 1959) = some "Before 1960") ∧
    (categorize_age (some 1960) = some "1960-1979") ∧
    (categorize_age (some 1979) = some "1960-1979") ∧
    (categorize_age (some 1980) = some "1980-1999") ∧
    (∀ t : RawTable, (loadedRows t).all (fun r => r.age_category.isSome) = true) := by
  refine ⟨rfl, ?_, ?_, ?_, ?_, ?_, ?_,
    by norm_num [categorize_age], by norm_num [categorize_age],
    by norm_num [categorize_age], by norm_num [categorize_age], ?_⟩
  · intro y
    simp only [categorize_age]
    split_ifs <;> simp_all
  · intro y hy
    simp only [categorize_age]
    split_ifs <;> simp_all <;> linarith
  · intro y
    simp only [categorize_age]
    split_ifs <;> simp_all <;>
      first
      | (constructor <;> linarith)
      | (intro h; linarith)
      | linarith
  · intro y
    simp only [categorize_age]
    split_ifs <;> simp_all <;>
      first
      | (constructor <;> linarith)
      | (intro h; linarith)
      | linarith
  · intro y
    simp only [categorize_age]
    split_ifs <;> simp_all <;>
      first
      | (constructor <;> linarith)
      | (intro h; linarith)
      | linarith
  · intro y
    simp only [categorize_age]
    split_ifs <;> simp_all <;> linarith
  · intro t
    rw [List.all_eq_true]
    intro r hr
    have h := loadedRows_pred t r hr
    simp only [Bool.and_eq_true] at h
    exact h.1.2

theorem C3_age_recoding_witness :
    (categorize_age (some 500) = some "Before 1960" ↔ (500 : ℚ) < 1960) ∧
    ((loadedRows rawSample).all (fun r => r.age_category.isSome) = true) := by
  obtain ⟨-, -, h3, -, -, -, -, -, -, -, -, hall⟩ := C3_age_recoding
  exact ⟨h3 500 (by norm_num), hall rawSample⟩

/-! ### Invariance lemmas for the aggregation kernel -/

theorem applyNeedsFilter_append (filt : String) (l1 l2 : List ProcRow) :
    applyNeedsFilter filt (l1 ++ l2) =
      applyNeedsFilter filt l1 ++ applyNeedsFilter filt l2 := by
  unfold applyNeedsFilter
  split_ifs <;> simp [List.filter_append]

theorem applyNeedsFilter_sub (filt : String) (l : List ProcRow) :
    ∀ r ∈ applyNeedsFilter filt l, r ∈ l := by
  unfold applyNeedsFilter
  split_ifs <;> intro r hr
  · exact List.mem_of_mem_filter hr
  · exact List.mem_of_mem_filter hr
  · exact hr

theorem applyNeedsFilter_map (filt : String) (φ : ProcRow → ProcRow)
    (hn : ∀ r, (φ r).has_accessibility_needs = r.has_accessibility_needs)
    (l : List ProcRow) :
    applyNeedsFilter filt (l.map φ) = (applyNeedsFilter filt l).map φ := by
  unfold applyNeedsFilter
  split_ifs
  · rw [List.filter_map]
    congr 1
    exact List.filter_congr (fun r _ => by simp [Function.comp, hn r])
  · rw [List.filter_map]
    congr 1
    exact List.filter_congr (fun r _ => by simp [Function.comp, hn r])
  · rfl

theorem groupKeys_map (g : GroupVar) (φ : ProcRow → ProcRow) (l : List ProcRow)
    (hg : ∀ r, g.get (φ r) = g.get r) :
    groupKeys g (l.map φ) = groupKeys g l := by
  unfold groupKeys
  have hfun : g.get ∘ φ = g.get := funext hg
  rw [List.filterMap_map, hfun]

theorem wsum_map (φ : ProcRow → ProcRow) (l : List ProcRow)
    (hw : ∀ r, wgt (φ r) = wgt r) : wsum (l.map φ) = wsum l := by
  unfold wsum
  have hfun : wgt ∘ φ = wgt := funext hw
  rw [List.map_map, hfun]

theorem fsum_map (φ : ProcRow → ProcRow) (f : ProcRow → Bool) (l : List ProcRow)
    (hw : ∀ r, wgt (φ r) = wgt r) (hf : ∀ r, f (φ r) = f r) :
    fsum (l.map φ) f = fsum l f := by
  unfold fsum
  rw [List.map_map]
  exact congrArg List.sum
    (List.map_congr_left (fun r _ => by simp [Function.comp, hf r, hw r]))

theorem prevalenceByGroup_map (g : GroupVar) (f : ProcRow → Bool)
    (φ : ProcRow → ProcRow) (l : List ProcRow)
    (hg : ∀ r, g.get (φ r) = g.get r) (hw : ∀ r, wgt (φ r) = wgt r)
    (hf : ∀ r, f (φ r) = f r) :
    prevalenceByGroup g (l.map φ) f = prevalenceByGroup g l f := by
  unfold prevalenceByGroup
  rw [groupKeys_map g φ l hg]
  refine List.map_congr_left ?_
  intro k _
  have hsub : (l.map φ).filter (fun r => g.get r == some k) =
      (l.filter (fun r => g.get r == some k)).map φ := by
    rw [List.filter_map]
    congr 1
    exact List.filter_congr (fun r _ => by simp [Function.comp, hg r])
  dsimp only
  rw [hsub, wsum_map φ _ hw, fsum_map φ f _ hw hf]

/-- C2: a simple feature evaluates to present iff its response code is
the Yes code 1, to absent iff it is the No code 2, and to unknown for
any other code (including -6 not applicable and -9 not reported); the
numerator and denominator tests of the Aggregator agree with this
classification; a record whose evaluation is unknown leaves the
feature's emitted rows (numerator and denominator) entirely unchanged,
and rewriting any other column leaves the feature's emitted rows
unchanged. -/
theorem C2_feature_coding :
    (∀ (v : String) (r : ProcRow),
      (featureEval v r = FeatureEval.present ↔ r.cellOf v = some "1") ∧
      (featureEval v r = FeatureEval.absent ↔ r.cellOf v = some "2") ∧
      (featureEval v r = FeatureEval.unknown ↔
        r.cellOf v ≠ some "1" ∧ r.cellOf v ≠ some "2") ∧
      (r.cellOf v = some "-6" → featureEval v r = FeatureEval.unknown) ∧
      (r.cellOf v = some "-9" → featureEval v r = FeatureEval.unknown) ∧
      (isValidCode (r.cellOf v) = (featureEval v r).isValid) ∧
      ((r.cellOf v == some "1") = (featureEval v r).isPresent)) ∧
    (∀ (v : String) (r : ProcRow) (cols : List String) (rows : List ProcRow)
        (g : GroupVar) (nm filt : String),
      featureEval v r = FeatureEval.unknown →
      calculate_feature_prevalence ⟨cols, rows ++ [r]⟩ g v nm filt =
        calculate_feature_prevalence ⟨cols, rows⟩ g v nm filt) ∧
    (∀ (v v2 : String) (c : ProcRow → Cell) (cols : List String)
        (rows : List ProcRow) (g : GroupVar) (nm filt : String),
      v2 ≠ v →
      calculate_feature_prevalence
          ⟨cols, rows.map (fun r => r.setCell v2 (c r))⟩ g v nm filt =
        calculate_feature_prevalence ⟨cols, rows⟩ g v nm filt) := by
  refine ⟨?_, ?_, ?_⟩
  · intro v r
    unfold featureEval
    by_cases h1 : r.cellOf v = some "1"
    · simp [h1, isValidCode, FeatureEval.isValid, FeatureEval.isPresent]
    · by_cases h2 : r.cellOf v = some "2"
      · simp [h1, h2, isValidCode, FeatureEval.isValid, FeatureEval.isPresent]
      · simp [h1, h2, isValidCode, FeatureEval.isValid, FeatureEval.isPresent]
  · intro v r cols rows g nm filt hunk
    have hvc : isValidCode (r.cellOf v) = false := by
      rw [validCode_eq_eval, hunk]
      rfl
    unfold calculate_feature_prevalence
    dsimp only
    rw [applyNeedsFilter_append, List.filter_append]
    have hdrop : (applyNeedsFilter filt [r]).filter
        (fun x => isValidCode (x.cellOf v)) = [] := by
      rw [List.filter_eq_nil_iff]
      intro x hx
      have hxr : x ∈ [r] := applyNeedsFilter_sub filt [r] x hx
      rw [List.mem_singleton] at hxr
      subst hxr
      simp [hvc]
    rw [hdrop, List.append_nil]
  · intro v v2 c cols rows g nm filt hne
    unfold calculate_feature_prevalence
    dsimp only
    rw [applyNeedsFilter_map filt (fun r => r.setCell v2 (c r)) (fun r => rfl)]
    have hcell : ∀ r : ProcRow, (r.setCell v2 (c r)).cellOf v = r.cellOf v := by
      intro r
      simp [ProcRow.setCell, hne.symm]
    have hvalid : List.filter (fun r => isValidCode (r.cellOf v))
        (List.map (fun r => r.setCell v2 (c r)) (applyNeedsFilter filt rows)) =
        List.map (fun r => r.setCell v2 (c r))
          (List.filter (fun r => isValidCode (r.cellOf v)) (applyNeedsFilter filt rows)) := by
      rw [List.filter_map]
      congr 1
      exact List.filter_congr (fun r _ => by simp [Function.comp, hcell r])
    rw [hvalid,
      prevalenceByGroup_map g (fun r => r.cellOf v == some "1")
        (fun r => r.setCell v2 (c r))
        (List.filter (fun r => isValidCode (r.cellOf v)) (applyNeedsFilter filt rows))
        (fun r => by cases g <;> rfl)
        (fun r => rfl)
        (fun r => by simp only [hcell r])]

theorem C2_feature_coding_witness :
    featureEval "NOSTEP" procC = FeatureEval.unknown ∧
    calculate_feature_prevalence ⟨sampleDF.cols, [procA, procB] ++ [procC]⟩
        GroupVar.age_category "NOSTEP" "No-step entrance" "all" =
      calculate_feature_prevalence ⟨sampleDF.cols, [procA, procB]⟩
        GroupVar.age_category "NOSTEP" "No-step entrance" "all" ∧
    calculate_feature_prevalence
        ⟨sampleDF.cols, [procA, procB].map (fun r => r.setCell "HARAMP" (some "2"))⟩
        GroupVar.age_category "NOSTEP" "No-step entrance" "all" =
      calculate_feature_prevalence ⟨sampleDF.cols, [procA, procB]⟩
        GroupVar.age_category "NOSTEP" "No-step entrance" "all" := by
  have hunk : featureEval "NOSTEP" procC = FeatureEval.unknown :=
    (C2_feature_coding.1 "NOSTEP" procC).2.2.1.mpr
      ⟨by simp [procC, cellsC], by simp [procC, cellsC]⟩
  refine ⟨hunk, ?_, ?_⟩
  · exact C2_feature_coding.2.1 "NOSTEP" procC sampleDF.cols [procA, procB]
      GroupVar.age_category "No-step entrance" "all" hunk
  · exact C2_feature_coding.2.2 "NOSTEP" "HARAMP" (fun _ => some "2")
      sampleDF.cols [procA, procB] GroupVar.age_category "No-step entrance" "all"
      (by decide)

/-- C4: the composite single-floor-living feature is present iff both
the entry-level-bedroom and entry-level-bathroom fields are
present-coded, absent iff both fields are valid-coded but not both
present, and unknown iff either field is unknown; its validity and
presence tests are the conjunctions of the per-field tests; the three
sample records (Yes/Yes, Yes/No, NotApplicable/Yes) evaluate to
present, absent, unknown respectively, and an unknown composite record
leaves the composite summary rows unchanged. -/
theorem C4_composite_feature :
    (∀ r : ProcRow, compositeEval r = FeatureEval.present ↔
      featureEval "HABEDENTRY" r = FeatureEval.present ∧
      featureEval "HABATHENTRY" r = FeatureEval.present) ∧
    (∀ r : ProcRow, compositeEval r = FeatureEval.absent ↔
      (featureEval "HABEDENTRY" r ≠ FeatureEval.unknown ∧
        featureEval "HABATHENTRY" r ≠ FeatureEval.unknown) ∧
      ¬(featureEval "HABEDENTRY" r = FeatureEval.present ∧
        featureEval "HABATHENTRY" r = FeatureEval.present)) ∧
    (∀ r : ProcRow, compositeEval r = FeatureEval.unknown ↔
      featureEval "HABEDENTRY" r = FeatureEval.unknown ∨
      featureEval "HABATHENTRY" r = FeatureEval.unknown) ∧
    (∀ r : ProcRow, bothValid r =
      ((featureEval "HABEDENTRY" r).isValid &&
        (featureEval "HABATHENTRY" r).isValid)) ∧
    (∀ r : ProcRow, bothPresent r =
      ((featureEval "HABEDENTRY" r).isPresent &&
        (featureEval "HABATHENTRY" r).isPresent)) ∧
    (compositeEval procA = FeatureEval.present) ∧
    (compositeEval procB = FeatureEval.absent) ∧
    (compositeEval procC = FeatureEval.unknown) ∧
    (∀ (r : ProcRow) (cols : List String) (rows : List ProcRow)
        (g : GroupVar) (filt : String),
      compositeEval r = FeatureEval.unknown →
      compositeSummary ⟨cols, rows ++ [r]⟩ g filt =
        compositeSummary ⟨cols, rows⟩ g filt) := by
  have hbv : ∀ r : ProcRow, bothValid r =
      ((featureEval "HABEDENTRY" r).isValid && (featureEval "HABATHENTRY" r).isValid) := by
    intro r
    unfold bothValid
    rw [validCode_eq_eval, validCode_eq_eval]
  have hbp : ∀ r : ProcRow, bothPresent r =
      ((featureEval "HABEDENTRY" r).isPresent && (featureEval "HABATHENTRY" r).isPresent) := by
    intro r
    unfold bothPresent
    rw [presentCode_eq_eval, presentCode_eq_eval]
  refine ⟨?_, ?_, ?_, hbv, hbp, rfl, rfl, rfl, ?_⟩
  · intro r
    unfold compositeEval
    rw [hbv r, hbp r]
    cases featureEval "HABEDENTRY" r <;> cases featureEval "HABATHENTRY" r <;>
      simp [FeatureEval.isValid, FeatureEval.isPresent]
  · intro r
    unfold compositeEval
    rw [hbv r, hbp r]
    cases featureEval "HABEDENTRY" r <;> cases featureEval "HABATHENTRY" r <;>
      simp [FeatureEval.isValid, FeatureEval.isPresent]
  · intro r
    unfold compositeEval
    rw [hbv r, hbp r]
    cases featureEval "HABEDENTRY" r <;> cases featureEval "HABATHENTRY" r <;>
      simp [FeatureEval.isValid, FeatureEval.isPresent]
  · intro r cols rows g filt hunk
    have hbvf : bothValid r = false := by
      by_cases h : bothValid r = true
      · exfalso
        unfold compositeEval at hunk
        rw [if_pos h] at hunk
        by_cases hp : bothPresent r = true
        · rw [if_pos hp] at hunk
          exact absurd hunk (by simp)
        · rw [if_neg hp] at hunk
          exact absurd hunk (by simp)
      · exact Bool.eq_false_iff.mpr h
    unfold compositeSummary
    dsimp only
    rw [applyNeedsFilter_append, List.filter_append]
    have hdrop : (applyNeedsFilter filt [r]).filter bothValid = [] := by
      rw [List.filter_eq_nil_iff]
      intro x hx
      have hxr := applyNeedsFilter_sub filt [r] x hx
      rw [List.mem_singleton] at hxr
      subst hxr
      simp [hbvf]
    rw [hdrop, List.append_nil]

theorem C4_composite_feature_witness :
    compositeEval procA = FeatureEval.present ∧
    compositeSummary ⟨sampleDF.cols, [procA, procB] ++ [procC]⟩
        GroupVar.age_category "all" =
      compositeSummary ⟨sampleDF.cols, [procA, procB]⟩
        GroupVar.age_category "all" := by
  obtain ⟨h1, -, -, -, -, -, -, hC, happ⟩ := C4_composite_feature
  refine ⟨h1 procA |>.mpr ⟨rfl, rfl⟩, ?_⟩
  exact happ procC sampleDF.cols [procA, procB] GroupVar.age_category "all" hC

/-! ### Decomposing membership in an output table -/

theorem mem_tableFor (df : DataFrame) (g : GroupVar) (row : SummaryRow)
    (hrow : row ∈ tableFor df g) :
    ∃ (rows0 : List ProcRow) (f : ProcRow → Bool),
      (∀ r ∈ rows0, r ∈ df.rows) ∧
      ∃ x ∈ prevalenceByGroup g rows0 f,
        row.percent_with_feature = x.2.1 ∧ row.total_units = x.2.2 := by
  unfold tableFor at hrow
  obtain ⟨filt, -, hrow⟩ := List.mem_flatMap.mp hrow
  rcases List.mem_append.mp hrow with hrow | hrow
  · obtain ⟨p, -, hrow⟩ := List.mem_flatMap.mp hrow
    by_cases hc : p.1 ∈ df.cols
    · rw [if_pos hc] at hrow
      unfold calculate_feature_prevalence at hrow
      obtain ⟨x, hx, rfl⟩ := List.mem_map.mp hrow
      refine ⟨(applyNeedsFilter filt df.rows).filter
          (fun r => isValidCode (r.cellOf p.1)),
        (fun r => r.cellOf p.1 == some "1"), ?_, x, hx, rfl, rfl⟩
      intro r hr
      exact applyNeedsFilter_sub filt df.rows r (List.mem_of_mem_filter hr)
    · rw [if_neg hc] at hrow
      simp at hrow
  · by_cases hc : "HABEDENTRY" ∈ df.cols ∧ "HABATHENTRY" ∈ df.cols
    · rw [if_pos hc] at hrow
      unfold compositeSummary at hrow
      obtain ⟨x, hx, rfl⟩ := List.mem_map.mp hrow
      refine ⟨(applyNeedsFilter filt df.rows).filter bothValid,
        bothPresent, ?_, x, hx, rfl, rfl⟩
      intro r hr
      exact applyNeedsFilter_sub filt df.rows r (List.mem_of_mem_filter hr)
    · rw [if_neg hc] at hrow
      simp at hrow

/-- C5: every row of either output table of a successfully loaded
dataframe has `percent_with_feature` between 0 and 100 and strictly
positive `total_units` (cells with an empty or zero-weight
valid-response subset are never emitted), and every dataframe produced
by `load_and_process_data` has only strictly positive weights. -/
theorem C5_row_bounds :
    (∀ (df : DataFrame) (row : SummaryRow),
      df.rows.all (fun r => decide (0 < wgt r)) = true →
      (row ∈ (generate_summaries df).by_age ∨
        row ∈ (generate_summaries df).by_structure) →
      0 ≤ row.percent_with_feature ∧ row.percent_with_feature ≤ 100 ∧
        0 < row.total_units) ∧
    (∀ (t : RawTable) (df : DataFrame), load_and_process_data t = Except.ok df →
      df.rows.all (fun r => decide (0 < wgt r)) = true) := by
  constructor
  · intro df row hall hmem
    have hpos : ∀ r ∈ df.rows, 0 < wgt r :=
      fun r hr => of_decide_eq_true (List.all_eq_true.mp hall r hr)
    have main : ∀ gv : GroupVar, row ∈ tableFor df gv →
        0 ≤ row.percent_with_feature ∧ row.percent_with_feature ≤ 100 ∧
          0 < row.total_units := by
      intro gv h
      obtain ⟨rows0, f, hsub, x, hx, hp, ht⟩ := mem_tableFor df gv row h
      have hb := prevalenceByGroup_bounds gv f rows0
        (fun r hr => hpos r (hsub r hr)) x hx
      exact ⟨hp ▸ hb.1, hp ▸ hb.2.1, ht ▸ hb.2.2⟩
    rcases hmem with h | h
    · exact main GroupVar.age_category h
    · exact main GroupVar.structure_type h
  · intro t df h
    rw [List.all_eq_true]
    intro r hr
    have hrr : r ∈ loadedRows t := by
      unfold loadedRows
      rw [h]
      exact hr
    have hp := loadedRows_pred t r hrr
    simp only [Bool.and_eq_true] at hp
    exact decide_eq_true (weightPos_wgt hp.1.1)

/-- The dataframe produced by loading the sample raw table. -/
def sampleLoaded : DataFrame :=
  match load_and_process_data rawSample with
  | Except.ok df => df
  | Except.error _ => { cols := [], rows := [] }

theorem C5_row_bounds_witness :
    (0 ≤ rowNostepAll.percent_with_feature ∧
      rowNostepAll.percent_with_feature ≤ 100 ∧ 0 < rowNostepAll.total_units) ∧
    sampleLoaded.rows.all (fun r => decide (0 < wgt r)) = true := by
  have hmem : rowNostepAll ∈ tableFor sampleDF GroupVar.age_category := by
    unfold tableFor
    refine List.mem_flatMap.mpr ⟨"all", by simp [needs_selectors], ?_⟩
    refine List.mem_append_left _ ?_
    refine List.mem_flatMap.mpr
      ⟨("NOSTEP", "No-step entrance"), by simp [ACCESSIBILITY_VARS], ?_⟩
    rw [if_pos (by decide : ("NOSTEP", "No-step entrance").1 ∈ sampleDF.cols)]
    rw [calcSampleAll_eval]
    exact List.mem_singleton.mpr rfl
  exact ⟨C5_row_bounds.1 sampleDF rowNostepAll rfl (Or.inl hmem),
    C5_row_bounds.2 rawSample sampleLoaded rfl⟩

/-! ### Loader structure lemmas -/

theorem loadOk_cols (t : RawTable) (df : DataFrame)
    (h : load_and_process_data t = Except.ok df) :
    columns_needed.all (fun c => decide (c ∈ t.cols)) = true := by
  by_cases hc : columns_needed.all (fun c => decide (c ∈ t.cols)) = true
  · exact hc
  · unfold load_and_process_data at h
    rw [if_neg hc] at h
    exact absurd h (by simp)

theorem loadOk_rows (t : RawTable) (df : DataFrame)
    (h : load_and_process_data t = Except.ok df) :
    df.rows = (t.rows.map (processRow t.cols)).filter (fun r =>
      weightPos r.weight && r.age_category.isSome && r.structure_type.isSome) := by
  have hc := loadOk_cols t df h
  unfold load_and_process_data at h
  rw [if_pos hc] at h
  injection h with h2
  rw [← h2]

/-- C6: the accessibility-needs flag of every loaded record is true iff
at least one configured need-indicator column holds the Yes code 1 (so
a record whose indicators are all missing, not applicable or not
reported gets flag false), and the loader's retention test never reads
the need indicators: any raw row passing the core filters (positive
weight, resolved age and structure categories) is kept. -/
theorem C6_needs_flag :
    (∀ (t : RawTable) (df : DataFrame), load_and_process_data t = Except.ok df →
      ∀ r ∈ df.rows,
        r.has_accessibility_needs =
          accessibility_needs_vars.any (fun v => r.cellOf v == some "1")) ∧
    (∀ (t : RawTable) (rr : RawRow), rr ∈ t.rows →
      ∀ df : DataFrame, load_and_process_data t = Except.ok df →
      (weightPos (processRow t.cols rr).weight &&
        (processRow t.cols rr).age_category.isSome &&
        (processRow t.cols rr).structure_type.isSome) = true →
      processRow t.cols rr ∈ df.rows) := by
  constructor
  · intro t df h r hr
    rw [loadOk_rows t df h] at hr
    obtain ⟨raw, -, rfl⟩ := List.mem_map.mp (List.mem_of_mem_filter hr)
    have hcols := loadOk_cols t df h
    have hfull : accessibility_needs_vars.filter (fun v => decide (v ∈ t.cols)) =
        accessibility_needs_vars := by
      rw [List.filter_eq_self]
      intro v hv
      apply decide_eq_true
      have hsub : ∀ w ∈ accessibility_needs_vars, w ∈ columns_needed := by decide
      exact of_decide_eq_true (List.all_eq_true.mp hcols v (hsub v hv))
    simp only [processRow, hfull]
  · intro t rr hrr df h hpred
    rw [loadOk_rows t df h]
    exact List.mem_filter.mpr ⟨List.mem_map_of_mem _ hrr, hpred⟩

/-- The processed form of the sample raw row. -/
def sampleProcRow : ProcRow := processRow columns_needed rawRowA

theorem C6_needs_flag_witness :
    sampleProcRow.has_accessibility_needs =
      accessibility_needs_vars.any (fun v => sampleProcRow.cellOf v == some "1") ∧
    sampleProcRow ∈ sampleLoaded.rows := by
  constructor
  · exact C6_needs_flag.1 rawSample sampleLoaded rfl sampleProcRow (List.Mem.head _)
  · exact C6_needs_flag.2 rawSample rawRowA (List.Mem.head _) sampleLoaded rfl rfl

/-! ### Monotonicity of group totals under the needs filter -/

theorem prevalence_total (g : GroupVar) (rows : List ProcRow) (f : ProcRow → Bool)
    (x : String × ℚ × ℚ) (hx : x ∈ prevalenceByGroup g rows f) :
    x.2.2 = wsum (rows.filter (fun r => g.get r == some x.1)) := by
  unfold prevalenceByGroup at hx
  obtain ⟨k, -, rfl⟩ := List.mem_map.mp hx
  rfl

/-- A summary-row maker, matching the fields emitted by the pipeline. -/
def mkRow (k : String) (p t : ℚ) (nm filt : String) : SummaryRow :=
  { group := k, percent_with_feature := p, total_units := t,
    feature := nm, needs_filter := filt }

theorem calc_row_total (df : DataFrame) (g : GroupVar) (v nm filt : String)
    (row : SummaryRow) (h : row ∈ calculate_feature_prevalence df g v nm filt) :
    row.total_units = wsum (((applyNeedsFilter filt df.rows).filter
      (fun r => isValidCode (r.cellOf v))).filter
        (fun r => g.get r == some row.group)) := by
  unfold calculate_feature_prevalence at h
  obtain ⟨x, hx, rfl⟩ := List.mem_map.mp h
  exact prevalence_total g _ _ x hx

theorem composite_row_total (df : DataFrame) (g : GroupVar) (filt : String)
    (row : SummaryRow) (h : row ∈ compositeSummary df g filt) :
    row.total_units = wsum (((applyNeedsFilter filt df.rows).filter
      bothValid).filter (fun r => g.get r == some row.group)) := by
  unfold compositeSummary at h
  obtain ⟨x, hx, rfl⟩ := List.mem_map.mp h
  exact prevalence_total g _ _ x hx

theorem needsFilter_with (l : List ProcRow) :
    applyNeedsFilter "with_needs" l = l.filter (fun r => r.has_accessibility_needs) := by
  unfold applyNeedsFilter
  rw [if_pos rfl]

theorem needsFilter_all (l : List ProcRow) : applyNeedsFilter "all" l = l := by
  unfold applyNeedsFilter
  rw [if_neg (by decide), if_neg (by decide)]

theorem total_mono (df : DataFrame) (g : GroupVar) (pv : ProcRow → Bool) (k : String)
    (hnn : ∀ r ∈ df.rows, 0 ≤ wgt r) :
    wsum (((applyNeedsFilter "with_needs" df.rows).filter pv).filter
        (fun r => g.get r == some k)) ≤
      wsum (((applyNeedsFilter "all" df.rows).filter pv).filter
        (fun r => g.get r == some k)) := by
  rw [needsFilter_with, needsFilter_all, List.filter_filter, List.filter_filter,
    List.filter_filter]
  have hcomm : df.rows.filter
      (fun r => (g.get r == some k) && pv r && r.has_accessibility_needs) =
      (df.rows.filter (fun r => (g.get r == some k) && pv r)).filter
        (fun r => r.has_accessibility_needs) := by
    rw [List.filter_filter]
    exact List.filter_congr (fun r _ => by
      cases hg : (g.get r == some k) <;> cases hp : pv r <;>
        cases hn : r.has_accessibility_needs <;> rfl)
  rw [hcomm]
  exact wsum_filter_le _ _ (fun r hr => hnn r (List.mem_of_mem_filter hr))

/-- C7: whenever a with_needs row and an all row are emitted for the
same group label and the same feature (by the per-feature aggregation
or by the composite block), the with_needs row's `total_units` is at
most the all row's, because the with_needs record set is the
needs-filtered subset of the all record set and retained weights are
nonnegative; feature display names are pairwise distinct, so equal
feature names in a table always come from the same aggregation. -/
theorem C7_with_needs_subset :
    (∀ (df : DataFrame) (g : GroupVar) (v nm k : String) (pw tw pa ta : ℚ),
      df.rows.all (fun r => decide (0 ≤ wgt r)) = true →
      mkRow k pw tw nm "with_needs" ∈
        calculate_feature_prevalence df g v nm "with_needs" →
      mkRow k pa ta nm "all" ∈ calculate_feature_prevalence df g v nm "all" →
      tw ≤ ta) ∧
    (∀ (df : DataFrame) (g : GroupVar) (k : String) (pw tw pa ta : ℚ),
      df.rows.all (fun r => decide (0 ≤ wgt r)) = true →
      mkRow k pw tw singleFloorName "with_needs" ∈
        compositeSummary df g "with_needs" →
      mkRow k pa ta singleFloorName "all" ∈ compositeSummary df g "all" →
      tw ≤ ta) ∧
    (ACCESSIBILITY_VARS.map Prod.snd ++ [singleFloorName]).Nodup := by
  refine ⟨?_, ?_, by decide⟩
  · intro df g v nm k pw tw pa ta hall hw ha
    have hnn : ∀ r ∈ df.rows, 0 ≤ wgt r :=
      fun r hr => of_decide_eq_true (List.all_eq_true.mp hall r hr)
    have htw := calc_row_total df g v nm "with_needs" _ hw
    have hta := calc_row_total df g v nm "all" _ ha
    simp only [mkRow] at htw hta
    rw [htw, hta]
    exact total_mono df g (fun r => isValidCode (r.cellOf v)) k hnn
  · intro df g k pw tw pa ta hall hw ha
    have hnn : ∀ r ∈ df.rows, 0 ≤ wgt r :=
      fun r hr => of_decide_eq_true (List.all_eq_true.mp hall r hr)
    have htw := composite_row_total df g "with_needs" _ hw
    have hta := composite_row_total df g "all" _ ha
    simp only [mkRow] at htw hta
    rw [htw, hta]
    exact total_mono df g bothValid k hnn

theorem calcSampleWith_eval :
    calculate_feature_prevalence sampleDF GroupVar.age_category
        "NOSTEP" "No-step entrance" "with_needs" =
      [mkRow "Before 1960" 100 100 "No-step entrance" "with_needs"] := by
  have h0 : calculate_feature_prevalence sampleDF GroupVar.age_category
      "NOSTEP" "No-step entrance" "with_needs" =
    [mkRow "Before 1960" (100 * ((1 : ℚ) * 100 + 0) / (100 + 0)) ((100 : ℚ) + 0)
      "No-step entrance" "with_needs"] := rfl
  rw [h0]
  unfold mkRow
  norm_num

theorem C7_with_needs_subset_witness :
    mkRow "Before 1960" 100 100 "No-step entrance" "with_needs" ∈
      calculate_feature_prevalence sampleDF GroupVar.age_category
        "NOSTEP" "No-step entrance" "with_needs" ∧
    mkRow "Before 1960" (200/3) 150 "No-step entrance" "all" ∈
      calculate_feature_prevalence sampleDF GroupVar.age_category
        "NOSTEP" "No-step entrance" "all" ∧
    (100 : ℚ) ≤ 150 := by
  have h1 : mkRow "Before 1960" 100 100 "No-step entrance" "with_needs" ∈
      calculate_feature_prevalence sampleDF GroupVar.age_category
        "NOSTEP" "No-step entrance" "with_needs" := by
    rw [calcSampleWith_eval]
    exact List.mem_singleton.mpr rfl
  have h2 : mkRow "Before 1960" (200/3) 150 "No-step entrance" "all" ∈
      calculate_feature_prevalence sampleDF GroupVar.age_category
        "NOSTEP" "No-step entrance" "all" := by
    rw [calcSampleAll_eval]
    exact List.mem_singleton.mpr rfl
  exact ⟨h1, h2, C7_with_needs_subset.1 sampleDF GroupVar.age_category
    "NOSTEP" "No-step entrance" "Before 1960" 100 100 (200/3) 150 rfl h1 h2⟩

/-! ### Row tagging lemmas -/

theorem calc_row_tags (df : DataFrame) (g : GroupVar) (v nm filt : String)
    (row : SummaryRow) (h : row ∈ calculate_feature_prevalence df g v nm filt) :
    row.feature = nm ∧ row.needs_filter = filt := by
  unfold calculate_feature_prevalence at h
  obtain ⟨x, -, rfl⟩ := List.mem_map.mp h
  exact ⟨rfl, rfl⟩

theorem composite_row_tags (df : DataFrame) (g : GroupVar) (filt : String)
    (row : SummaryRow) (h : row ∈ compositeSummary df g filt) :
    row.feature = singleFloorName ∧ row.needs_filter = filt := by
  unfold compositeSummary at h
  obtain ⟨x, -, rfl⟩ := List.mem_map.mp h
  exact ⟨rfl, rfl⟩

/-- The sample raw table with the NOSTEP feature column removed from
its schema (all core columns still present). -/
def rawMissingFeature : RawTable :=
  { cols := columns_needed.erase "NOSTEP", rows := [rawRowA] }

/-- The sample processed dataframe with NOSTEP removed from the schema,
for exercising the per-feature skip guard of `generate_summaries`. -/
def dfNoNostep : DataFrame :=
  { cols := sampleDF.cols.erase "NOSTEP", rows := sampleDF.rows }

/-- C8 (against the claim): `pd.read_csv(usecols=columns_needed)`
raises when ANY requested column is missing, so an input schema
lacking only the optional feature column NOSTEP makes the whole run
abort even though all core columns are present; the per-feature guard
of `generate_summaries` (which would skip the feature, as shown on a
dataframe lacking the column) is unreachable for missing columns. -/
theorem C8_missing_feature_column_aborts :
    load_and_process_data rawMissingFeature =
      Except.error "Usecols do not match columns" ∧
    ("WEIGHT" ∈ rawMissingFeature.cols ∧ "YRBUILT" ∈ rawMissingFeature.cols ∧
      "UNITSIZE" ∈ rawMissingFeature.cols) ∧
    ((tableFor dfNoNostep GroupVar.age_category).all
      (fun row => row.feature != "No-step entrance") = true) := by
  refine ⟨rfl, by decide, ?_⟩
  rw [List.all_eq_true]
  intro row hrow
  unfold tableFor at hrow
  obtain ⟨filt, -, hrow⟩ := List.mem_flatMap.mp hrow
  rcases List.mem_append.mp hrow with hrow | hrow
  · obtain ⟨p, hp, hrow⟩ := List.mem_flatMap.mp hrow
    by_cases hc : p.1 ∈ dfNoNostep.cols
    · rw [if_pos hc] at hrow
      have hf := (calc_row_tags dfNoNostep GroupVar.age_category p.1 p.2 filt row hrow).1
      rw [bne_iff_ne, hf]
      intro hnm
      have hv : p.1 = "NOSTEP" := by
        have hun : ∀ q ∈ ACCESSIBILITY_VARS, q.2 = "No-step entrance" →
            q.1 = "NOSTEP" := by decide
        exact hun p hp hnm
      rw [hv] at hc
      exact absurd hc (by decide)
    · rw [if_neg hc] at hrow
      simp at hrow
  · by_cases hc : "HABEDENTRY" ∈ dfNoNostep.cols ∧ "HABATHENTRY" ∈ dfNoNostep.cols
    · rw [if_pos hc] at hrow
      have hf := (composite_row_tags dfNoNostep GroupVar.age_category filt row hrow).1
      rw [bne_iff_ne, hf]
      decide
    · rw [if_neg hc] at hrow
      simp at hrow

/-- C9: the pipeline is a pure function of the raw input table: two
runs on identical input produce identical loaded dataframes and
identical summaries (both tables and the metadata). -/
theorem C9_pipeline_deterministic :
    ∀ t1 t2 : RawTable, t1 = t2 → runPipeline t1 = runPipeline t2 := by
  intro t1 t2 h
  rw [h]

theorem C9_pipeline_deterministic_witness :
    runPipeline rawSample = runPipeline rawSample :=
  C9_pipeline_deterministic rawSample rawSample rfl

theorem sample_row_mem_age_table :
    rowNostepAll ∈ tableFor sampleDF GroupVar.age_category := by
  unfold tableFor
  refine List.mem_flatMap.mpr ⟨"all", by simp [needs_selectors], ?_⟩
  refine List.mem_append_left _ ?_
  refine List.mem_flatMap.mpr
    ⟨("NOSTEP", "No-step entrance"), by simp [ACCESSIBILITY_VARS], ?_⟩
  rw [if_pos (by decide : ("NOSTEP", "No-step entrance").1 ∈ sampleDF.cols)]
  rw [calcSampleAll_eval]
  exact List.mem_singleton.mpr rfl

/-- C10: every row of either output table carries selector all or
with_needs and never without_needs (which is absent from the selector
list the assembler iterates over), while the aggregation function does
accept without_needs and implements it as the complement restriction
on the needs flag. -/
theorem C10_selectors :
    (∀ (df : DataFrame) (row : SummaryRow),
      (row ∈ (generate_summaries df).by_age ∨
        row ∈ (generate_summaries df).by_structure) →
      row.needs_filter = "all" ∨ row.needs_filter = "with_needs") ∧
    (∀ l : List ProcRow, applyNeedsFilter "without_needs" l =
      l.filter (fun r => !r.has_accessibility_needs)) ∧
    ("without_needs" ∉ needs_selectors) := by
  refine ⟨?_, ?_, by decide⟩
  · intro df row hmem
    have main : ∀ gv : GroupVar, row ∈ tableFor df gv →
        row.needs_filter = "all" ∨ row.needs_filter = "with_needs" := by
      intro gv h
      unfold tableFor at h
      obtain ⟨filt, hfilt, h⟩ := List.mem_flatMap.mp h
      have hfeq : row.needs_filter = filt := by
        rcases List.mem_append.mp h with h | h
        · obtain ⟨p, -, h⟩ := List.mem_flatMap.mp h
          by_cases hc : p.1 ∈ df.cols
          · rw [if_pos hc] at h
            exact (calc_row_tags df gv p.1 p.2 filt row h).2
          · rw [if_neg hc] at h
            simp at h
        · by_cases hc : "HABEDENTRY" ∈ df.cols ∧ "HABATHENTRY" ∈ df.cols
          · rw [if_pos hc] at h
            exact (composite_row_tags df gv filt row h).2
          · rw [if_neg hc] at h
            simp at h
      rw [hfeq]
      simpa [needs_selectors] using hfilt
    rcases hmem with h | h
    · exact main GroupVar.age_category h
    · exact main GroupVar.structure_type h
  · intro l
    unfold applyNeedsFilter
    rw [if_neg (by decide), if_pos rfl]

theorem C10_selectors_witness :
    rowNostepAll.needs_filter = "all" ∨ rowNostepAll.needs_filter = "with_needs" :=
  C10_selectors.1 sampleDF rowNostepAll (Or.inl sample_row_mem_age_table)
